import Mathlib

set_option maxHeartbeats 1000000

/-!
Verification of the tic-tac-toe game-session core of the repository
(src/tic_tac_toe_backend/src/api/routes.py and utils.py), shallowly embedded
in Lean.  Persistence is modelled by the list of commit events a request
performs; randomness (random.choice) is modelled by an oracle index supplied
by the caller.
-/

namespace TicTacToe

/-- Symbols placed on the board (the strings "X" and "O" in the source). -/
inductive Symbol
  | X
  | O
  deriving DecidableEq

/-- Values stored in the games.winner column: "X", "O" or "draw". -/
inductive WinnerVal
  | X
  | O
  | draw
  deriving DecidableEq

/-- Conversion from a winning symbol to the stored winner value (the source
stores the same string in both places). -/
def winnerOfSymbol : Symbol → WinnerVal
  | Symbol.X => WinnerVal.X
  | Symbol.O => WinnerVal.O

/-- Opponent kind of a game (the opponent_type column): "human" or "computer". -/
inductive OpponentType
  | human
  | computer
  deriving DecidableEq

/-- A board cell: None, "X" or "O" in the source JSON board. -/
abbrev Cell := Option Symbol

/-- The 3x3 board (a JSON list of three lists of three cells in the source),
modelled as a function from row and column to cell. -/
abbrev Board := Fin 3 → Fin 3 → Cell

/-- The in-place update board[i][j] = s performed by routes.play_move. -/
def Board.set (b : Board) (i j : Fin 3) (s : Symbol) : Board :=
  fun r c => if r = i ∧ c = j then some s else b r c

/-- Python truthiness of one cell: None is falsy, "X" and "O" are truthy. -/
def cellVal (c : Cell) : Nat := if c.isSome then 1 else 0

/-- The move number computed inline in routes.play_move:
sum(1 for row in board for cell in row if cell). -/
def countOccupied (b : Board) : Nat :=
  cellVal (b 0 0) + cellVal (b 0 1) + cellVal (b 0 2) +
    cellVal (b 1 0) + cellVal (b 1 1) + cellVal (b 1 2) +
    cellVal (b 2 0) + cellVal (b 2 1) + cellVal (b 2 2)

/-- utils.is_board_full: all(cell for row in board for cell in row). -/
def is_board_full (b : Board) : Bool :=
  (List.finRange 3).all fun i => (List.finRange 3).all fun j => (b i j).isSome

/-- Row check of utils.check_winner: all(cell == symbol for cell in board[i]). -/
def rowWin (b : Board) (s : Symbol) (i : Fin 3) : Bool :=
  (List.finRange 3).all fun j => b i j == some s

/-- Column check of utils.check_winner:
all(board[r][i] == symbol for r in range(3)). -/
def colWin (b : Board) (s : Symbol) (i : Fin 3) : Bool :=
  (List.finRange 3).all fun r => b r i == some s

/-- Main-diagonal check of utils.check_winner:
all(board[i][i] == symbol for i in range(3)). -/
def diagWin (b : Board) (s : Symbol) : Bool :=
  (List.finRange 3).all fun i => b i i == some s

/-- Anti-diagonal check of utils.check_winner:
all(board[i][2 - i] == symbol for i in range(3)). -/
def antiDiagWin (b : Board) (s : Symbol) : Bool :=
  (List.finRange 3).all fun i => b i ⟨2 - i.val, by omega⟩ == some s

/-- Whether the loop body of utils.check_winner finds a line for symbol s. -/
def symbolWins (b : Board) (s : Symbol) : Bool :=
  ((List.finRange 3).any fun i => rowWin b s i || colWin b s i) ||
    diagWin b s || antiDiagWin b s

/-- utils.check_winner: the loop tries "X" first and then "O", returning the
first symbol with a uniform row, column or diagonal; None otherwise. -/
def check_winner (b : Board) : Option Symbol :=
  if symbolWins b Symbol.X then some Symbol.X
  else if symbolWins b Symbol.O then some Symbol.O
  else none

/-- The empty-cell comprehension of utils.generate_computer_move:
[(i, j) for i in range(3) for j in range(3) if not board[i][j]]. -/
def emptyCellsList (b : Board) : List (Fin 3 × Fin 3) :=
  (List.finRange 3).flatMap fun i =>
    ((List.finRange 3).filter fun j => !(b i j).isSome).map fun j => (i, j)

/-- utils.generate_computer_move.  random.choice is modelled by the oracle
index k supplied by the caller: the cell at position k mod length of the
empty-cell list is chosen; None is returned exactly when empty_cells is
empty, as in the source. -/
def generate_computer_move (b : Board) (k : Nat) : Option (Fin 3 × Fin 3) :=
  let empty_cells := emptyCellsList b
  if empty_cells.isEmpty then none
  else empty_cells.get? (k % empty_cells.length)

instance : DecidableEq (Fin 3 → Cell) :=
  fun a b => Fintype.decidablePiFintype a b

instance : DecidableEq Board :=
  fun a b => Fintype.decidablePiFintype a b

/-- A row of the games table, restricted to the fields the core reads and
writes (db.Game / models.Game). -/
structure Game where
  player_x_id : Nat
  player_o_id : Option Nat
  board : Board
  turn : Symbol
  winner : Option WinnerVal
  complete : Bool
  opponent_type : OpponentType
  deriving DecidableEq

/-- A row of the moves table as appended by routes.play_move (db.Move);
player_id is None for the computer. -/
structure MoveEntry where
  player_id : Option Nat
  x : Int
  y : Int
  symbol : Symbol
  move_number : Nat
  deriving DecidableEq

/-- routes.create_game: a fresh game with an empty board, turn "X", no
winner, not complete, and no O player yet (player_o_id is None for both
opponent types). -/
def create_game (creator_id : Nat) (opponent_type : OpponentType) : Game :=
  { player_x_id := creator_id
    player_o_id := none
    board := fun _ _ => none
    turn := Symbol.X
    winner := none
    complete := false
    opponent_type := opponent_type }

/-- Rejections raised by routes.join_game. -/
inductive JoinReject
  | notHumanGame
  | creatorCannotJoin
  | alreadyTwoPlayers
  deriving DecidableEq

/-- Python truthiness of the Optional[int] player_o_id column. -/
def pyTruthy (o : Option Nat) : Bool :=
  match o with
  | none => false
  | some n => n != 0

/-- routes.join_game: join a human-versus-human game as O. -/
def join_game (g : Game) (pid : Nat) : Except JoinReject Game :=
  if g.opponent_type ≠ OpponentType.human then Except.error JoinReject.notHumanGame
  else if g.player_x_id = pid then Except.error JoinReject.creatorCannotJoin
  else if pyTruthy g.player_o_id then Except.error JoinReject.alreadyTwoPlayers
  else Except.ok { g with player_o_id := some pid }

/-- Rejections raised by routes.play_move, in source order. -/
inductive Reject
  | gameComplete
  | notParticipant
  | notYourTurn
  | invalidCoordinates
  | cellOccupied
  deriving DecidableEq

/-- Symbol resolution of routes.play_move lines 215-221: X for the X player,
O for the registered O player or for any player of a computer game whose O
seat is unset, otherwise no symbol (HTTP 403). -/
def resolveSymbol (g : Game) (pid : Nat) : Option Symbol :=
  if g.player_x_id = pid then some Symbol.X
  else if g.player_o_id = some pid ∨
      (g.opponent_type = OpponentType.computer ∧ g.player_o_id = none) then
    some Symbol.O
  else none

/-- Winner and turn update after the human move, routes.play_move lines
241-251: complete is reset to False, then the winner check, the draw check
and the turn flip run in order. -/
def humanOutcome (g : Game) (symbol : Symbol) : Game :=
  match check_winner g.board with
  | some w => { g with winner := some (winnerOfSymbol w), complete := true }
  | none =>
    if is_board_full g.board then
      { g with winner := some WinnerVal.draw, complete := true }
    else
      { g with complete := false
               turn := if symbol = Symbol.X then Symbol.O else Symbol.X }

/-- Winner and turn update after the computer move, routes.play_move lines
267-275; the turn is set literally to "X" in the open case. -/
def computerOutcome (g : Game) : Game :=
  match check_winner g.board with
  | some w => { g with winner := some (winnerOfSymbol w), complete := true }
  | none =>
    if is_board_full g.board then
      { g with winner := some WinnerVal.draw, complete := true }
    else
      { g with turn := Symbol.X }

/-- One database commit performed by routes.play_move: the session snapshot
saved together with the move rows added in that commit. -/
structure Commit where
  game : Game
  newMoves : List MoveEntry
  deriving DecidableEq

/-- Result of one move request.  crashed models the uncaught TypeError the
source would raise when unpacking None from generate_computer_move; it can
only occur after the first commit. -/
inductive MoveResult
  | rejected (r : Reject)
  | crashed
  | accepted (g : Game) (log : List MoveEntry)
  deriving DecidableEq

/-- routes.play_move for a loaded game g with move log, acting player pid
and request coordinates mx my (ints on the wire).  k is the randomness
oracle for the computer reply.  Returns the result together with the list
of database commits the request performed, in order. -/
def play_move (g : Game) (log : List MoveEntry) (pid : Nat) (mx my : Int)
    (k : Nat) : MoveResult × List Commit :=
  if g.complete then (MoveResult.rejected Reject.gameComplete, [])
  else
    match resolveSymbol g pid with
    | none => (MoveResult.rejected Reject.notParticipant, [])
    | some symbol =>
      if g.turn ≠ symbol then (MoveResult.rejected Reject.notYourTurn, [])
      else if hx : 0 ≤ mx ∧ mx < 3 ∧ 0 ≤ my ∧ my < 3 then
        let i : Fin 3 := ⟨mx.toNat, by omega⟩
        let j : Fin 3 := ⟨my.toNat, by omega⟩
        if (g.board i j).isSome then (MoveResult.rejected Reject.cellOccupied, [])
        else
          let board1 := Board.set g.board i j symbol
          let move_number := countOccupied board1
          let entry1 : MoveEntry :=
            { player_id := some pid, x := mx, y := my, symbol := symbol
              move_number := move_number }
          let g1 := humanOutcome { g with board := board1 } symbol
          let log1 := log ++ [entry1]
          let c1 : Commit := { game := g1, newMoves := [entry1] }
          if g1.opponent_type = OpponentType.computer ∧ g1.complete = false ∧
              g1.turn = Symbol.O then
            match generate_computer_move g1.board k with
            | none => (MoveResult.crashed, [c1])
            | some (ci, cj) =>
              let board2 := Board.set g1.board ci cj Symbol.O
              let entry2 : MoveEntry :=
                { player_id := none, x := (ci.val : Int), y := (cj.val : Int)
                  symbol := Symbol.O, move_number := move_number + 1 }
              let g2 := computerOutcome { g1 with board := board2 }
              let c2 : Commit := { game := g2, newMoves := [entry2] }
              (MoveResult.accepted g2 (log1 ++ [entry2]), [c1, c2])
          else (MoveResult.accepted g1 log1, [c1])
      else (MoveResult.rejected Reject.invalidCoordinates, [])

/-- States of a game record reachable through the operations of the API:
creation, joins, and accepted moves, together with the move log. -/
inductive Reachable : Game → List MoveEntry → Prop
  | created (creator_id : Nat) (ot : OpponentType) :
      Reachable (create_game creator_id ot) []
  | joined {g l g'} (pid : Nat) :
      Reachable g l → join_game g pid = Except.ok g' → Reachable g' l
  | moved {g l g' l' cs} (pid : Nat) (mx my : Int) (k : Nat) :
      Reachable g l → play_move g l pid mx my k = (MoveResult.accepted g' l', cs) →
      Reachable g' l'

/-- Empty board used as the replay starting point (the board a fresh game
is created with). -/
def emptyBoard : Board := fun _ _ => none

/-- Replay one recorded move entry onto a board: place its symbol at its
coordinates (entries recorded by play_move always have in-range
coordinates; an out-of-range entry is left unapplied). -/
def placeEntry (b : Board) (e : MoveEntry) : Board :=
  if h : 0 ≤ e.x ∧ e.x < 3 ∧ 0 ≤ e.y ∧ e.y < 3 then
    Board.set b ⟨e.x.toNat, by omega⟩ ⟨e.y.toNat, by omega⟩ e.symbol
  else b

/-- Replay a move log from the empty board, in stored order. -/
def replay (l : List MoveEntry) : Board :=
  l.foldl placeEntry emptyBoard

/-- Symbol whose turn it is after n accepted placements: X when n is even. -/
def paritySym (n : Nat) : Symbol :=
  if n % 2 = 0 then Symbol.X else Symbol.O

/-- Session invariant relating a game record to its move log: complete
means winner-or-full, the log length matches the number of occupied cells,
replaying the log reproduces the board, move numbers are 1..N in order,
symbols alternate starting with X, and the turn of an open game is the
parity symbol. -/
structure Inv (g : Game) (l : List MoveEntry) : Prop where
  completeIff :
    g.complete = true ↔ (g.winner ≠ none ∨ is_board_full g.board = true)
  countEq : countOccupied g.board = l.length
  replayEq : replay l = g.board
  numsEq : l.map MoveEntry.move_number = List.range' 1 l.length
  symsEq : l.map MoveEntry.symbol = (List.range l.length).map paritySym
  turnEq : g.complete = false → g.turn = paritySym l.length

/-- Specification-side reading of a winning line, written from the words of
the spec: some row, some column, or one of the two diagonals consists
uniformly of the symbol s. -/
def uniformLineSpec (b : Board) (s : Symbol) : Prop :=
  (∃ i : Fin 3, ∀ j : Fin 3, b i j = some s) ∨
    (∃ j : Fin 3, ∀ i : Fin 3, b i j = some s) ∨
    (∀ i : Fin 3, b i i = some s) ∨
    (∀ i : Fin 3, b i ⟨2 - i.val, by omega⟩ = some s)

/-- Test driver chaining accepted play_move requests (acting player, row,
column), with randomness oracle 0; returns None as soon as a request is not
accepted. -/
def runMoves (g : Game) (l : List MoveEntry) :
    List (Nat × Int × Int) → Option (Game × List MoveEntry)
  | [] => some (g, l)
  | (pid, mx, my) :: rest =>
    match play_move g l pid mx my 0 with
    | (MoveResult.accepted g' l', _) => runMoves g' l' rest
    | _ => none

/-- The human-versus-human session of the win scenario: player 1 created
the game and player 2 joined as O. -/
def scenarioGame : Game :=
  { player_x_id := 1
    player_o_id := some 2
    board := fun _ _ => none
    turn := Symbol.X
    winner := none
    complete := false
    opponent_type := OpponentType.human }

/-- The five requests of the win scenario:
X(0,0), O(1,1), X(0,1), O(1,0), X(0,2). -/
def scenarioMoves : List (Nat × Int × Int) :=
  [(1, 0, 0), (2, 1, 1), (1, 0, 1), (2, 1, 0), (1, 0, 2)]

/-- Session state after the first human move X(0,0) of a fresh
computer-opponent game, before the computer reply. -/
def gameAfterOne : Game :=
  { player_x_id := 1
    player_o_id := none
    board := Board.set (fun _ _ => none) 0 0 Symbol.X
    turn := Symbol.O
    winner := none
    complete := false
    opponent_type := OpponentType.computer }

/-- Session state after the first human move X(0,0) of a fresh
computer-opponent game and the forced computer reply O(0,1) (oracle 0). -/
def gameAfterTwo : Game :=
  { player_x_id := 1
    player_o_id := none
    board := Board.set (Board.set (fun _ _ => none) 0 0 Symbol.X) 0 1 Symbol.O
    turn := Symbol.X
    winner := none
    complete := false
    opponent_type := OpponentType.computer }

/-- Move row recorded for the human move X(0,0). -/
def entryX : MoveEntry :=
  { player_id := some 1, x := 0, y := 0, symbol := Symbol.X, move_number := 1 }

/-- Move row recorded for the computer reply O(0,1). -/
def entryO : MoveEntry :=
  { player_id := none, x := 0, y := 1, symbol := Symbol.O, move_number := 2 }

/-- Board whose top row is uniformly X and which is empty elsewhere. -/
def rowXBoard : Board :=
  fun i _ => if i = 0 then some Symbol.X else none

lemma paritySym_succ (n : Nat) :
    (if paritySym n = Symbol.X then Symbol.O else Symbol.X) = paritySym (n + 1) := by
  rcases Nat.mod_two_eq_zero_or_one n with h | h
  · have h2 : (n + 1) % 2 = 1 := by omega
    simp [paritySym, h, h2]
  · have h2 : (n + 1) % 2 = 0 := by omega
    simp [paritySym, h, h2]

lemma countOccupied_set (b : Board) (i j : Fin 3) (s : Symbol)
    (h : b i j = none) :
    countOccupied (Board.set b i j s) = countOccupied b + 1 := by
  fin_cases i <;> fin_cases j <;>
    simp_all [countOccupied, Board.set, cellVal, Fin.ext_iff] <;> omega

lemma Board.set_same (b : Board) (i j : Fin 3) (s : Symbol) :
    Board.set b i j s i j = some s := by
  simp [Board.set]

lemma mem_emptyCellsList {b : Board} {c : Fin 3 × Fin 3} :
    c ∈ emptyCellsList b ↔ b c.1 c.2 = none := by
  obtain ⟨i, j⟩ := c
  constructor
  · intro h
    simp only [emptyCellsList, List.mem_flatMap, List.mem_map,
      List.mem_filter] at h
    obtain ⟨a, -, y, ⟨-, hy⟩, heq⟩ := h
    cases heq
    rcases hb : b i j with _ | s
    · simp [hb]
    · rw [hb] at hy
      simp at hy
  · intro h
    simp only [emptyCellsList, List.mem_flatMap, List.mem_map, List.mem_filter]
    exact ⟨i, by simp, j, ⟨by simp, by simp [h]⟩, rfl⟩

lemma emptyCellsList_eq_nil_iff (b : Board) :
    emptyCellsList b = [] ↔ is_board_full b = true := by
  constructor
  · intro h
    simp only [is_board_full, List.all_eq_true, List.mem_finRange, true_implies]
    intro i j
    by_contra hc
    have hmem : (i, j) ∈ emptyCellsList b := by
      rw [mem_emptyCellsList]
      exact Option.not_isSome_iff_eq_none.mp (by simpa using hc)
    rw [h] at hmem
    exact absurd hmem (List.not_mem_nil _)
  · intro h
    rcases hE : emptyCellsList b with _ | ⟨c, rest⟩
    · rfl
    · exfalso
      have hmem : c ∈ emptyCellsList b := by rw [hE]; exact List.mem_cons_self _ _
      rw [mem_emptyCellsList] at hmem
      simp only [is_board_full, List.all_eq_true, List.mem_finRange,
        true_implies] at h
      have := h c.1 c.2
      rw [hmem] at this
      simp at this

lemma generate_none_iff (b : Board) (k : Nat) :
    generate_computer_move b k = none ↔ is_board_full b = true := by
  rw [← emptyCellsList_eq_nil_iff]
  simp only [generate_computer_move]
  rcases hE : emptyCellsList b with _ | ⟨c, rest⟩
  · simp
  · rw [if_neg (by simp)]
    constructor
    · intro h
      have hlt : k % (c :: rest).length < (c :: rest).length :=
        Nat.mod_lt _ (by simp)
      rw [List.get?_eq_get hlt] at h
      exact absurd h (by simp)
    · intro h
      exact absurd h (by simp)

lemma generate_some_mem {b : Board} {k : Nat} {c : Fin 3 × Fin 3}
    (h : generate_computer_move b k = some c) : b c.1 c.2 = none := by
  rw [← mem_emptyCellsList]
  simp only [generate_computer_move] at h
  rcases hE : emptyCellsList b with _ | ⟨d, rest⟩
  · rw [hE] at h
    simp at h
  · rw [hE] at h
    rw [if_neg (by simp)] at h
    exact List.get?_mem h

lemma humanOutcome_board (g : Game) (s : Symbol) :
    (humanOutcome g s).board = g.board := by
  unfold humanOutcome
  rcases hcw : check_winner g.board with _ | w <;> simp only [hcw]
  by_cases hf : is_board_full g.board = true <;> simp [hf]

lemma humanOutcome_ids (g : Game) (s : Symbol) :
    (humanOutcome g s).player_x_id = g.player_x_id ∧
      (humanOutcome g s).player_o_id = g.player_o_id ∧
      (humanOutcome g s).opponent_type = g.opponent_type := by
  unfold humanOutcome
  rcases hcw : check_winner g.board with _ | w <;> simp only [hcw]
  · by_cases hf : is_board_full g.board = true <;> simp [hf]
  · simp

lemma humanOutcome_completeIff (g : Game) (s : Symbol)
    (hw : g.winner = none) :
    (humanOutcome g s).complete = true ↔
      ((humanOutcome g s).winner ≠ none ∨ is_board_full g.board = true) := by
  unfold humanOutcome
  rcases hcw : check_winner g.board with _ | w <;> simp only [hcw]
  · by_cases hf : is_board_full g.board = true <;> simp [hf, hw]
  · simp

lemma humanOutcome_open_turn (g : Game) (s : Symbol)
    (h : (humanOutcome g s).complete = false) :
    (humanOutcome g s).turn = (if s = Symbol.X then Symbol.O else Symbol.X) := by
  unfold humanOutcome at h ⊢
  rcases hcw : check_winner g.board with _ | w <;> simp only [hcw] at h ⊢
  · by_cases hf : is_board_full g.board = true
    · simp [hf] at h
    · simp [hf]
  · simp at h

lemma humanOutcome_open_not_full (g : Game) (s : Symbol)
    (h : (humanOutcome g s).complete = false) :
    is_board_full g.board = false := by
  unfold humanOutcome at h
  rcases hcw : check_winner g.board with _ | w <;> simp only [hcw] at h
  · by_cases hf : is_board_full g.board = true
    · simp [hf] at h
    · simpa using hf
  · simp at h

lemma computerOutcome_open_turn (g : Game)
    (h : (computerOutcome g).complete = false) :
    (computerOutcome g).turn = Symbol.X := by
  unfold computerOutcome at h ⊢
  rcases hcw : check_winner g.board with _ | w <;> simp only [hcw] at h ⊢
  · by_cases hf : is_board_full g.board = true
    · simp [hf] at h
    · simp [hf]
  · simp at h

lemma computerOutcome_eq (g : Game) (h : g.complete = false) :
    computerOutcome g = humanOutcome g Symbol.O := by
  unfold computerOutcome humanOutcome
  rcases hcw : check_winner g.board with _ | w <;> simp only [hcw]
  · by_cases hf : is_board_full g.board = true
    · simp [hf]
    · simp only [hf, if_false, Bool.false_eq_true]
      cases g
      simp_all

lemma range'_one_concat (s n : Nat) :
    List.range' s (n + 1) = List.range' s n ++ [s + n] := by
  have h : List.range' s (n + 1) 1 = List.range' s n 1 ++ [s + 1 * n] :=
    List.range'_concat s n
  simpa using h

lemma placeEntry_ok (b : Board) (e : MoveEntry) (i j : Fin 3)
    (hx : e.x = (i.val : Int)) (hy : e.y = (j.val : Int)) :
    placeEntry b e = Board.set b i j e.symbol := by
  have hi := i.isLt
  have hj := j.isLt
  have hb : 0 ≤ e.x ∧ e.x < 3 ∧ 0 ≤ e.y ∧ e.y < 3 := by omega
  unfold placeEntry
  rw [dif_pos hb]
  have h1 : e.x.toNat = i.val := by omega
  have h2 : e.y.toNat = j.val := by omega
  funext r c
  simp [Board.set, Fin.ext_iff, h1, h2]

lemma replay_append (l : List MoveEntry) (e : MoveEntry) :
    replay (l ++ [e]) = placeEntry (replay l) e := by
  simp [replay, List.foldl_append]

lemma join_game_ok {g : Game} {pid : Nat} {g' : Game}
    (h : join_game g pid = Except.ok g') :
    g' = { g with player_o_id := some pid } := by
  unfold join_game at h
  split at h
  · exact absurd h (by simp)
  · split at h
    · exact absurd h (by simp)
    · split at h
      · exact absurd h (by simp)
      · injection h with h
        exact h.symm

lemma applyPlace_inv {g : Game} {l : List MoveEntry} (inv : Inv g l)
    (hc : g.complete = false) {s : Symbol} {i j : Fin 3}
    (hcell : g.board i j = none) (hturn : g.turn = s) {e : MoveEntry}
    (hex : e.x = (i.val : Int)) (hey : e.y = (j.val : Int)) (hes : e.symbol = s)
    (hen : e.move_number = countOccupied (Board.set g.board i j s)) :
    Inv (humanOutcome { g with board := Board.set g.board i j s } s)
      (l ++ [e]) := by
  have hw : g.winner = none := by
    rcases hwv : g.winner with _ | w
    · rfl
    · have h2 := inv.completeIff.mpr (Or.inl (by simp [hwv]))
      rw [hc] at h2
      exact absurd h2 (by simp)
  have hcount : countOccupied (Board.set g.board i j s) = l.length + 1 := by
    rw [countOccupied_set g.board i j s hcell, inv.countEq]
  have hsp : s = paritySym l.length := hturn ▸ inv.turnEq hc
  refine ⟨?_, ?_, ?_, ?_, ?_, ?_⟩
  · rw [humanOutcome_board]
    exact humanOutcome_completeIff _ s hw
  · rw [humanOutcome_board]
    simp [hcount]
  · rw [replay_append, inv.replayEq, humanOutcome_board]
    show placeEntry g.board e = Board.set g.board i j s
    rw [placeEntry_ok g.board e i j hex hey, hes]
  · rw [List.map_append, inv.numsEq]
    simp only [List.map_cons, List.map_nil, List.length_append,
      List.length_cons, List.length_nil]
    rw [hen, hcount, range'_one_concat]
    simp [Nat.add_comm]
  · rw [List.map_append, inv.symsEq]
    simp only [List.map_cons, List.map_nil, List.length_append,
      List.length_cons, List.length_nil]
    rw [List.range_succ, List.map_append]
    simp [hes, hsp]
  · intro hopen
    have ht := humanOutcome_open_turn _ s hopen
    rw [ht, hsp, paritySym_succ]
    simp

lemma inv_step {g : Game} {l : List MoveEntry} {pid : Nat} {mx my : Int}
    {k : Nat} {g' : Game} {l' : List MoveEntry} {cs : List Commit}
    (inv : Inv g l)
    (h : play_move g l pid mx my k = (MoveResult.accepted g' l', cs)) :
    Inv g' l' := by
  simp only [play_move] at h
  split at h
  · simp at h
  next hc =>
    split at h
    · simp at h
    next symbol hsym =>
      split at h
      · simp at h
      next hturn =>
        split at h
        next hx =>
          split at h
          · simp at h
          next hocc =>
            have hcb : g.complete = false := by simpa using hc
            have hturn2 : g.turn = symbol := not_not.mp hturn
            have hcell := Option.not_isSome_iff_eq_none.mp hocc
            split at h
            next hcompb =>
              split at h
              · simp at h
              next ci cj hgen =>
                cases h
                have hcell2 := generate_some_mem hgen
                rw [computerOutcome_eq]
                · exact applyPlace_inv
                    (applyPlace_inv inv hcb hcell hturn2
                      (by show mx = ((mx.toNat : Nat) : Int); omega)
                      (by show my = ((my.toNat : Nat) : Int); omega)
                      rfl rfl)
                    hcompb.2.1 hcell2 hcompb.2.2 rfl rfl rfl
                    (by rw [countOccupied_set _ _ _ Symbol.O hcell2,
                          humanOutcome_board])
                · exact hcompb.2.1
            next hnocomp =>
              cases h
              exact applyPlace_inv inv hcb hcell hturn2
                (by show mx = ((mx.toNat : Nat) : Int); omega)
                (by show my = ((my.toNat : Nat) : Int); omega)
                rfl rfl
        · simp at h

lemma reachable_inv {g : Game} {l : List MoveEntry} (h : Reachable g l) :
    Inv g l := by
  induction h with
  | created cid ot =>
    have hf : is_board_full (fun _ _ => none : Board) = false := rfl
    refine ⟨?_, ?_, rfl, rfl, rfl, fun _ => rfl⟩
    · show false = true ↔
        ((none : Option WinnerVal) ≠ none ∨
          is_board_full (fun _ _ => none : Board) = true)
      simp [hf]
    · show countOccupied (fun _ _ => none : Board) =
        ([] : List MoveEntry).length
      rfl
  | joined pid hr hj ih =>
    rw [join_game_ok hj]
    exact ⟨ih.completeIff, ih.countEq, ih.replayEq, ih.numsEq, ih.symsEq,
      ih.turnEq⟩
  | moved pid mx my k hr hstep ih => exact inv_step ih hstep

lemma symbolWins_iff (b : Board) (s : Symbol) :
    symbolWins b s = true ↔ uniformLineSpec b s := by
  unfold symbolWins uniformLineSpec rowWin colWin diagWin antiDiagWin
  simp only [Bool.or_eq_true, List.any_eq_true, List.all_eq_true,
    List.mem_finRange, true_and, true_implies, beq_iff_eq]
  rw [exists_or]
  tauto

/-- Concrete evaluation of the first request of a fresh computer game:
X plays (0,0), the computer answers O at (0,1), and two separate commits
are performed. -/
lemma play_first_computer :
    play_move (create_game 1 OpponentType.computer) [] 1 0 0 0 =
      (MoveResult.accepted gameAfterTwo [entryX, entryO],
        [{ game := gameAfterOne, newMoves := [entryX] },
         { game := gameAfterTwo, newMoves := [entryO] }]) := by
  decide

/-- C1: for every reachable session, complete holds iff the winner is set
(X, O or draw) or the board is full; the invariant holds at creation and is
preserved by every accepted move (both captured by reachability), and a
complete session rejects every move request with the finished-game reason
without performing any commit. -/
theorem complete_iff_winner_or_full_absorbing (g : Game) (l : List MoveEntry)
    (h : Reachable g l) :
    (g.complete = true ↔ (g.winner ≠ none ∨ is_board_full g.board = true)) ∧
    (g.complete = true → ∀ (pid : Nat) (mx my : Int) (k : Nat),
      play_move g l pid mx my k =
        (MoveResult.rejected Reject.gameComplete, [])) := by
  refine ⟨(reachable_inv h).completeIff, ?_⟩
  intro hc pid mx my k
  simp [play_move, hc]

theorem complete_iff_winner_or_full_absorbing_w :
    (((create_game 1 OpponentType.human).complete = true ↔
      ((create_game 1 OpponentType.human).winner ≠ none ∨
        is_board_full (create_game 1 OpponentType.human).board = true)) ∧
    ((create_game 1 OpponentType.human).complete = true →
      ∀ (pid : Nat) (mx my : Int) (k : Nat),
        play_move (create_game 1 OpponentType.human) [] pid mx my k =
          (MoveResult.rejected Reject.gameComplete, []))) :=
  complete_iff_winner_or_full_absorbing (create_game 1 OpponentType.human) []
    (Reachable.created 1 OpponentType.human)

/-- C2: every rejected move request performs no database commit at all, so
the session row, its board, turn, winner, complete flag and the move log
are exactly as before the request; the rejection reason is returned as a
value of the discriminated Reject type. -/
theorem rejected_request_no_commits (g : Game) (l : List MoveEntry)
    (pid : Nat) (mx my : Int) (k : Nat) (r : Reject) (cs : List Commit)
    (h : play_move g l pid mx my k = (MoveResult.rejected r, cs)) :
    cs = [] := by
  simp only [play_move] at h
  split at h
  · cases h; rfl
  · split at h
    · cases h; rfl
    · split at h
      · cases h; rfl
      · split at h
        · split at h
          · cases h; rfl
          · split at h
            · split at h
              · simp at h
              · simp at h
            · simp at h
        · cases h; rfl

theorem rejected_request_no_commits_w :
    (play_move (create_game 1 OpponentType.human) [] 2 0 0 0).2 = [] :=
  rejected_request_no_commits (create_game 1 OpponentType.human) [] 2 0 0 0
    Reject.notParticipant
    ((play_move (create_game 1 OpponentType.human) [] 2 0 0 0).2) (by decide)

/-- C4: along every reachable session, the recorded symbols strictly
alternate starting with X, the recorded move numbers are exactly 1..N in
log order, and N equals the number of occupied cells of the stored board
(each move number is the occupied-cell count immediately after its move,
since this holds at every reachable state). -/
theorem moves_alternate_numbered (g : Game) (l : List MoveEntry)
    (h : Reachable g l) :
    l.map MoveEntry.symbol = (List.range l.length).map paritySym ∧
    l.map MoveEntry.move_number = List.range' 1 l.length ∧
    countOccupied g.board = l.length := by
  have inv := reachable_inv h
  exact ⟨inv.symsEq, inv.numsEq, inv.countEq⟩

theorem moves_alternate_numbered_w :
    [entryX, entryO].map MoveEntry.symbol =
      (List.range ([entryX, entryO] : List MoveEntry).length).map paritySym ∧
    [entryX, entryO].map MoveEntry.move_number =
      List.range' 1 ([entryX, entryO] : List MoveEntry).length ∧
    countOccupied gameAfterTwo.board =
      ([entryX, entryO] : List MoveEntry).length :=
  moves_alternate_numbered gameAfterTwo [entryX, entryO]
    (Reachable.moved 1 0 0 0 (Reachable.created 1 OpponentType.computer)
      play_first_computer)

/-- C8: for every reachable session, replaying the recorded move log in
stored order against an empty board reproduces the stored board exactly;
the stored order is the move-number order because the recorded move numbers
are 1..N in log order. -/
theorem replay_log_reproduces_board (g : Game) (l : List MoveEntry)
    (h : Reachable g l) :
    replay l = g.board ∧
    l.map MoveEntry.move_number = List.range' 1 l.length := by
  have inv := reachable_inv h
  exact ⟨inv.replayEq, inv.numsEq⟩

theorem replay_log_reproduces_board_w :
    replay [entryX, entryO] = gameAfterTwo.board ∧
    [entryX, entryO].map MoveEntry.move_number =
      List.range' 1 ([entryX, entryO] : List MoveEntry).length :=
  replay_log_reproduces_board gameAfterTwo [entryX, entryO]
    (Reachable.moved 1 0 0 0 (Reachable.created 1 OpponentType.computer)
      play_first_computer)

/-- C3 counterexample: a non-participant submitting out-of-range
coordinates (5,5) to a fresh human game is rejected as not-participant,
not with the out-of-bounds reason the claim requires, so the claimed check
order (bounds before participant) is false on the code. -/
theorem bounds_checked_after_participant_counterexample :
    play_move (create_game 1 OpponentType.human) [] 2 5 5 0 =
      (MoveResult.rejected Reject.notParticipant, []) ∧
    Reject.notParticipant ≠ Reject.invalidCoordinates :=
  ⟨by decide, by decide⟩

/-- C3 amended: validation checks run in the order (1) session not
complete, (2) acting player resolves to a symbol, (3) resolved symbol
equals the turn, (4) coordinates in range, (5) target cell empty, with the
first failure determining the reason; in particular an out-of-range request
from a non-participant is rejected as not-participant and one from a
participant out of turn as not-your-turn. -/
theorem validation_order (g : Game) (l : List MoveEntry) (pid : Nat)
    (mx my : Int) (k : Nat) :
    (g.complete = true →
      (play_move g l pid mx my k).1 =
        MoveResult.rejected Reject.gameComplete) ∧
    (g.complete = false → resolveSymbol g pid = none →
      (play_move g l pid mx my k).1 =
        MoveResult.rejected Reject.notParticipant) ∧
    (∀ s, g.complete = false → resolveSymbol g pid = some s → g.turn ≠ s →
      (play_move g l pid mx my k).1 =
        MoveResult.rejected Reject.notYourTurn) ∧
    (∀ s, g.complete = false → resolveSymbol g pid = some s → g.turn = s →
      ¬(0 ≤ mx ∧ mx < 3 ∧ 0 ≤ my ∧ my < 3) →
      (play_move g l pid mx my k).1 =
        MoveResult.rejected Reject.invalidCoordinates) ∧
    (∀ s (i j : Fin 3), g.complete = false → resolveSymbol g pid = some s →
      g.turn = s → mx = (i.val : Int) → my = (j.val : Int) →
      (g.board i j).isSome = true →
      (play_move g l pid mx my k).1 =
        MoveResult.rejected Reject.cellOccupied) := by
  refine ⟨?_, ?_, ?_, ?_, ?_⟩
  · intro hc
    simp [play_move, hc]
  · intro hc hres
    simp [play_move, hc, hres]
  · intro s hc hres ht
    simp [play_move, hc, hres, ht]
  · intro s hc hres ht hb
    simp [play_move, hc, hres, ht, hb]
  · intro s i j hc hres ht hmx hmy hocc
    subst hmx
    subst hmy
    have hb : 0 ≤ (i.val : Int) ∧ (i.val : Int) < 3 ∧
        0 ≤ (j.val : Int) ∧ (j.val : Int) < 3 := by
      have := i.isLt
      have := j.isLt
      omega
    simp [play_move, hc, hres, ht, hb, Int.toNat_natCast, Fin.eta, hocc]

theorem validation_order_w :
    (play_move (create_game 1 OpponentType.human) [] 2 5 5 0).1 =
      MoveResult.rejected Reject.notParticipant :=
  (validation_order (create_game 1 OpponentType.human) [] 2 5 5 0).2.1
    rfl rfl

/-- C7: at the failing input (first move X(0,0) of a computer game), the
code persists the human move and the forced computer reply in two separate
commits, the first of which contains only the human move, so the two rows
are not persisted atomically as one logical unit. -/
theorem separate_commits_for_computer_reply :
    (play_move (create_game 1 OpponentType.computer) [] 1 0 0 0).2.map
        Commit.newMoves = [[entryX], [entryO]] ∧
    entryX.player_id = some 1 ∧ entryO.player_id = none :=
  ⟨by decide, rfl, rfl⟩

/-- C9: generate_computer_move returns None exactly when the board is full
and otherwise returns an empty cell of the given board; every open
reachable session has a non-full board; and the computer branch of
play_move can never crash unpacking None, on any input whatsoever. -/
theorem computer_move_safety :
    (∀ (b : Board) (k : Nat),
      generate_computer_move b k = none ↔ is_board_full b = true) ∧
    (∀ (b : Board) (k : Nat) (c : Fin 3 × Fin 3),
      generate_computer_move b k = some c → b c.1 c.2 = none) ∧
    (∀ (g : Game) (l : List MoveEntry), Reachable g l → g.complete = false →
      is_board_full g.board = false) ∧
    (∀ (g : Game) (l : List MoveEntry) (pid : Nat) (mx my : Int) (k : Nat),
      (play_move g l pid mx my k).1 ≠ MoveResult.crashed) := by
  refine ⟨generate_none_iff, fun b k c h => generate_some_mem h, ?_, ?_⟩
  · intro g l hr hc
    have inv := reachable_inv hr
    by_contra hf
    have hfull : is_board_full g.board = true := by
      revert hf
      cases is_board_full g.board <;> simp
    have h2 := inv.completeIff.mpr (Or.inr hfull)
    rw [hc] at h2
    exact absurd h2 (by simp)
  · intro g l pid mx my k hcrash
    simp only [play_move] at hcrash
    split at hcrash
    · simp at hcrash
    · split at hcrash
      · simp at hcrash
      next symbol hsym =>
        split at hcrash
        · simp at hcrash
        · split at hcrash
          next hx =>
            split at hcrash
            · simp at hcrash
            next hocc =>
              split at hcrash
              next hcompb =>
                split at hcrash
                next hgen =>
                  have hfull := (generate_none_iff _ k).mp hgen
                  rw [humanOutcome_board] at hfull
                  have hnot := humanOutcome_open_not_full _ symbol hcompb.2.1
                  rw [hnot] at hfull
                  exact absurd hfull (by simp)
                · simp at hcrash
              · simp at hcrash
          · simp at hcrash

theorem computer_move_safety_w :
    (fun _ _ => none : Board) 0 0 = none :=
  computer_move_safety.2.1 (fun _ _ => none) 0 (0, 0) (by decide)

/-- C10: in a human-versus-human game whose O seat is unassigned, every
player other than the X player is rejected as not a participant, the X
player is rejected as not-your-turn whenever the turn is O, no request is
ever accepted while the turn is O, and the creator can never join their own
game as O. -/
theorem pending_o_seat_blocks (g : Game) (l : List MoveEntry) (pid : Nat)
    (mx my : Int) (k : Nat) :
    (g.opponent_type = OpponentType.human → g.player_o_id = none →
      g.complete = false → pid ≠ g.player_x_id →
      (play_move g l pid mx my k).1 =
        MoveResult.rejected Reject.notParticipant) ∧
    (g.opponent_type = OpponentType.human → g.player_o_id = none →
      g.complete = false → pid = g.player_x_id → g.turn = Symbol.O →
      (play_move g l pid mx my k).1 =
        MoveResult.rejected Reject.notYourTurn) ∧
    (g.opponent_type = OpponentType.human → g.player_o_id = none →
      g.turn = Symbol.O → ∀ g2 l2 cs,
        play_move g l pid mx my k ≠ (MoveResult.accepted g2 l2, cs)) ∧
    (g.opponent_type = OpponentType.human →
      join_game g g.player_x_id = Except.error JoinReject.creatorCannotJoin) := by
  have hres : g.opponent_type = OpponentType.human → g.player_o_id = none →
      pid ≠ g.player_x_id → resolveSymbol g pid = none := by
    intro hopp ho hpid
    have hxne : ¬(g.player_x_id = pid) := fun hh => hpid hh.symm
    simp [resolveSymbol, hxne, ho, hopp]
  have hresx : pid = g.player_x_id → resolveSymbol g pid = some Symbol.X := by
    intro hpid
    simp [resolveSymbol, hpid.symm]
  refine ⟨?_, ?_, ?_, ?_⟩
  · intro hopp ho hc hpid
    simp [play_move, hc, hres hopp ho hpid]
  · intro hopp ho hc hpid ht
    have : g.turn ≠ Symbol.X := by rw [ht]; simp
    simp [play_move, hc, hresx hpid, this]
  · intro hopp ho ht g2 l2 cs heq
    have hfst : (play_move g l pid mx my k).1 = MoveResult.accepted g2 l2 := by
      rw [heq]
    rcases hcv : g.complete with _ | _
    · by_cases hpid : pid = g.player_x_id
      · have hne : g.turn ≠ Symbol.X := by rw [ht]; simp
        have h2 : (play_move g l pid mx my k).1 =
            MoveResult.rejected Reject.notYourTurn := by
          simp [play_move, hcv, hresx hpid, hne]
        rw [hfst] at h2
        exact absurd h2 (by simp)
      · have h2 : (play_move g l pid mx my k).1 =
            MoveResult.rejected Reject.notParticipant := by
          simp [play_move, hcv, hres hopp ho hpid]
        rw [hfst] at h2
        exact absurd h2 (by simp)
    · have h2 : (play_move g l pid mx my k).1 =
          MoveResult.rejected Reject.gameComplete := by
        simp [play_move, hcv]
      rw [hfst] at h2
      exact absurd h2 (by simp)
  · intro hopp
    simp [join_game, hopp]

theorem pending_o_seat_blocks_w :
    (play_move (create_game 1 OpponentType.human) [] 2 0 0 0).1 =
      MoveResult.rejected Reject.notParticipant :=
  (pending_o_seat_blocks (create_game 1 OpponentType.human) [] 2 0 0 0).1
    rfl rfl rfl (by decide)

/-- C5: the win detector reports a symbol only if that symbol occupies a
uniform row, column or diagonal, reports no winner when neither symbol has
such a line, and on the scenario board reached by the accepted moves
X(0,0), O(1,1), X(0,1), O(1,0), X(0,2) it reports winner X and the session
becomes complete. -/
theorem check_winner_sound_and_scenario :
    (∀ (b : Board) (s : Symbol),
      check_winner b = some s → uniformLineSpec b s) ∧
    (∀ b : Board, ¬uniformLineSpec b Symbol.X → ¬uniformLineSpec b Symbol.O →
      check_winner b = none) ∧
    join_game (create_game 1 OpponentType.human) 2 = Except.ok scenarioGame ∧
    (runMoves scenarioGame [] scenarioMoves).map
      (fun p => (p.1.winner, p.1.complete)) =
        some (some WinnerVal.X, true) := by
  refine ⟨?_, ?_, ?_, ?_⟩
  · intro b s hcw
    unfold check_winner at hcw
    by_cases hX : symbolWins b Symbol.X = true
    · rw [if_pos hX] at hcw
      injection hcw with hcw
      subst hcw
      exact (symbolWins_iff b Symbol.X).mp hX
    · rw [if_neg hX] at hcw
      by_cases hO : symbolWins b Symbol.O = true
      · rw [if_pos hO] at hcw
        injection hcw with hcw
        subst hcw
        exact (symbolWins_iff b Symbol.O).mp hO
      · rw [if_neg hO] at hcw
        exact absurd hcw (by simp)
  · intro b hX hO
    unfold check_winner
    rw [if_neg (fun hc => hX ((symbolWins_iff b Symbol.X).mp hc)),
      if_neg (fun hc => hO ((symbolWins_iff b Symbol.O).mp hc))]
  · rfl
  · decide

theorem check_winner_sound_and_scenario_w :
    uniformLineSpec rowXBoard Symbol.X :=
  check_winner_sound_and_scenario.1 rowXBoard Symbol.X (by decide)

/-- C6: every accepted move of a computer-opponent game consists of the
human placement followed, exactly when the session is still open with turn
O after it, by a single computer move: an O placed on a cell that was empty
after the human move, with move number one larger, win and draw detection
run on the resulting board, the turn back at X if the game is still open,
and the returned snapshot and log already containing that reply; if the
human move completed the game, no computer move is made. -/
theorem computer_reply_in_same_transition (g : Game) (l : List MoveEntry)
    (pid : Nat) (mx my : Int) (k : Nat) (g' : Game) (l' : List MoveEntry)
    (cs : List Commit)
    (hrun : play_move g l pid mx my k = (MoveResult.accepted g' l', cs))
    (hopp : g.opponent_type = OpponentType.computer) :
    ∃ (s : Symbol) (i j : Fin 3) (g1 : Game) (e1 : MoveEntry),
      resolveSymbol g pid = some s ∧ g.turn = s ∧ g.board i j = none ∧
      mx = (i.val : Int) ∧ my = (j.val : Int) ∧
      g1 = humanOutcome { g with board := Board.set g.board i j s } s ∧
      e1 = { player_id := some pid, x := mx, y := my, symbol := s,
             move_number := countOccupied (Board.set g.board i j s) } ∧
      (¬(g1.complete = false ∧ g1.turn = Symbol.O) →
        g' = g1 ∧ l' = l ++ [e1] ∧
          cs = [{ game := g1, newMoves := [e1] }]) ∧
      ((g1.complete = false ∧ g1.turn = Symbol.O) →
        ∃ (ci cj : Fin 3) (e2 : MoveEntry),
          g1.board ci cj = none ∧
          e2 = { player_id := none, x := (ci.val : Int), y := (cj.val : Int),
                 symbol := Symbol.O, move_number := e1.move_number + 1 } ∧
          g' = computerOutcome
            { g1 with board := Board.set g1.board ci cj Symbol.O } ∧
          l' = l ++ [e1, e2] ∧
          cs = [{ game := g1, newMoves := [e1] },
                { game := g', newMoves := [e2] }] ∧
          (g'.complete = false → g'.turn = Symbol.X)) := by
  simp only [play_move] at hrun
  split at hrun
  · simp at hrun
  next hc =>
    split at hrun
    · simp at hrun
    next symbol hsym =>
      split at hrun
      · simp at hrun
      next hturn =>
        split at hrun
        next hx =>
          split at hrun
          · simp at hrun
          next hocc =>
            have hcell := Option.not_isSome_iff_eq_none.mp hocc
            have hturn2 : g.turn = symbol := not_not.mp hturn
            split at hrun
            next hcompb =>
              split at hrun
              · simp at hrun
              next ci cj hgen =>
                cases hrun
                refine ⟨symbol, _, _, _, _, hsym, hturn2, hcell,
                  (by show mx = ((mx.toNat : Nat) : Int); omega),
                  (by show my = ((my.toNat : Nat) : Int); omega),
                  rfl, rfl, ?_, ?_⟩
                · intro hnot
                  exact absurd ⟨hcompb.2.1, hcompb.2.2⟩ hnot
                · intro hcond
                  refine ⟨ci, cj, _, generate_some_mem hgen, rfl, rfl,
                    List.append_assoc l _ _, rfl, ?_⟩
                  intro hoc
                  exact computerOutcome_open_turn _ hoc
            next hnocomp =>
              cases hrun
              refine ⟨symbol, _, _, _, _, hsym, hturn2, hcell,
                (by show mx = ((mx.toNat : Nat) : Int); omega),
                (by show my = ((my.toNat : Nat) : Int); omega),
                rfl, rfl, ?_, ?_⟩
              · intro hnot
                exact ⟨rfl, rfl, rfl⟩
              · intro hcond
                exfalso
                apply hnocomp
                refine ⟨?_, hcond.1, hcond.2⟩
                rw [(humanOutcome_ids _ _).2.2]
                exact hopp
        · simp at hrun

theorem computer_reply_in_same_transition_w :
    ∃ (s : Symbol) (i j : Fin 3) (g1 : Game) (e1 : MoveEntry),
      resolveSymbol (create_game 1 OpponentType.computer) 1 = some s ∧
      (create_game 1 OpponentType.computer).turn = s ∧
      (create_game 1 OpponentType.computer).board i j = none ∧
      (0 : Int) = (i.val : Int) ∧ (0 : Int) = (j.val : Int) ∧
      g1 = humanOutcome { create_game 1 OpponentType.computer with
        board := Board.set (create_game 1 OpponentType.computer).board i j s }
        s ∧
      e1 = { player_id := some 1, x := 0, y := 0, symbol := s,
             move_number := countOccupied (Board.set
               (create_game 1 OpponentType.computer).board i j s) } ∧
      (¬(g1.complete = false ∧ g1.turn = Symbol.O) →
        gameAfterTwo = g1 ∧ [entryX, entryO] = [] ++ [e1] ∧
          ([{ game := gameAfterOne, newMoves := [entryX] },
            { game := gameAfterTwo, newMoves := [entryO] }] : List Commit) =
          [{ game := g1, newMoves := [e1] }]) ∧
      ((g1.complete = false ∧ g1.turn = Symbol.O) →
        ∃ (ci cj : Fin 3) (e2 : MoveEntry),
          g1.board ci cj = none ∧
          e2 = { player_id := none, x := (ci.val : Int), y := (cj.val : Int),
                 symbol := Symbol.O, move_number := e1.move_number + 1 } ∧
          gameAfterTwo = computerOutcome
            { g1 with board := Board.set g1.board ci cj Symbol.O } ∧
          [entryX, entryO] = [] ++ [e1, e2] ∧
          ([{ game := gameAfterOne, newMoves := [entryX] },
            { game := gameAfterTwo, newMoves := [entryO] }] : List Commit) =
          [{ game := g1, newMoves := [e1] },
           { game := gameAfterTwo, newMoves := [e2] }] ∧
          (gameAfterTwo.complete = false → gameAfterTwo.turn = Symbol.X)) :=
  computer_reply_in_same_transition (create_game 1 OpponentType.computer) []
    1 0 0 0 gameAfterTwo [entryX, entryO]
    [{ game := gameAfterOne, newMoves := [entryX] },
     { game := gameAfterTwo, newMoves := [entryO] }]
    play_first_computer rfl

end TicTacToe
